import Mathlib

/-!
Shallow embedding of the TikTok live mini-game engine
(`gaming-system.js` and `dj-game-system.js`).

JS `Map`s (which preserve insertion order) are modelled as association
lists with `mapGet`/`mapSet`/first-key semantics; JS `Set`s of usernames
as insertion-ordered `List String` with membership-guarded append.
Wall-clock instants (`Date.now()`, `new Date()`) are explicit `Nat`
parameters; `Math.random()`-derived quantities are explicit parameters
(a `Nat` seed for the wheel index, rationals for race movement).
Status/phase strings are kept as the literal `String`s of the source.
-/

/-- Association-list model of a JS `Map` lookup (`map.get(k)`). -/
def mapGet {α : Type} : List (String × α) → String → Option α
  | [], _ => none
  | (k', v) :: rest, k => if k' = k then some v else mapGet rest k

/-- Association-list model of a JS `Map` write (`map.set(k, v)`): replaces the
first binding of `k` in place, otherwise appends (insertion order preserved). -/
def mapSet {α : Type} : List (String × α) → String → α → List (String × α)
  | [], k, v => [(k, v)]
  | (k', v') :: rest, k, v =>
    if k' = k then (k, v) :: rest else (k', v') :: mapSet rest k v

/-- JS `\w` character class: `[A-Za-z0-9_]`. -/
def isWordChar (c : Char) : Bool := c.isAlphanum || c = '_'

/-- Wordness of a possibly-absent character (out of string counts as non-word). -/
def isWordOpt : Option Char → Bool
  | none => false
  | some c => isWordChar c

/-- Does the keyword occur at this position with a `\b` word boundary on each
side, as in the regex `\b<escaped keyword>\b` of `addLuckyWheelEntry`?
(`prev` is the character just before the position, if any.) -/
def matchesAt (kw : List Char) (prev : Option Char) (rest : List Char) : Bool :=
  (rest.take kw.length == kw)
    && (isWordOpt prev != isWordOpt (kw ++ rest.drop kw.length).head?)
    && (isWordOpt (prev.toList ++ kw).getLast? != isWordOpt (rest.drop kw.length).head?)

/-- Scan all positions of the message for a word-boundary occurrence. -/
def wbScan (kw : List Char) (prev : Option Char) : List Char → Bool
  | [] => matchesAt kw prev []
  | c :: cs => matchesAt kw prev (c :: cs) || wbScan kw (some c) cs

/-- `new RegExp(`\\b${escaped}\\b`).test(msg)` — the escaping makes the keyword
literal, so this is exact-substring occurrence flanked by word boundaries. -/
def wordBoundaryTest (kw msg : String) : Bool := wbScan kw.data none msg.data

/-- Substring containment, modelling JS `hay.includes(needle)`. -/
def strIncludesAux (needle : List Char) : List Char → Bool
  | [] => needle.isEmpty
  | c :: cs => (List.take needle.length (c :: cs) == needle) || strIncludesAux needle cs

/-- JS `hay.includes(needle)`. -/
def strIncludes (hay needle : String) : Bool :=
  (List.take needle.length hay.data == needle.data) || strIncludesAux needle.data hay.data

/-- JS `String.prototype.trim` (whitespace stripped from both ends). -/
def trimChars (s : List Char) : List Char :=
  ((s.dropWhile Char.isWhitespace).reverse.dropWhile Char.isWhitespace).reverse

/-- One pass of `replace(/\b\w/g, l => l.toUpperCase())` over an already
lowercased string: uppercase every word character that starts a word. -/
def titleCaseGo (prevIsWord : Bool) : List Char → List Char
  | [] => []
  | c :: cs =>
    (if isWordChar c && !prevIsWord then c.toUpper else c) :: titleCaseGo (isWordChar c) cs

/-- `s.toLowerCase().replace(/\b\w/g, l => l.toUpperCase())` — the song-name
normalization of `addSongRequest`. -/
def titleCase (s : List Char) : List Char := titleCaseGo false (s.map Char.toLower)

/-- JS falsy-default on a numeric setting: `value || defaultValue` (0 and
absent both fall back). -/
def orDefaultNat : Option Nat → Nat → Nat
  | some v, d => if v = 0 then d else v
  | none, d => d

/-- JS falsy-default on a string setting: `value || defaultValue`. -/
def orDefaultStr : Option String → String → String
  | some v, d => if v = "" then d else v
  | none, d => d

/-- `settings.luckyWheel` category as read by `getSetting`. -/
structure LuckyWheelSettings where
  duration : Option Nat := none
  keyword : Option String := none
deriving DecidableEq

/-- `settings.djGame` category as read by the DJ system's `getSetting`. -/
structure DJSettings where
  requestDuration : Option Nat := none
  votingDuration : Option Nat := none
deriving DecidableEq

/-- The game-settings document loaded from the database (only the categories
the engine reads). -/
structure Settings where
  luckyWheel : Option LuckyWheelSettings := none
  djGame : Option DJSettings := none
deriving DecidableEq

/-- `getSetting('luckyWheel', 'duration', 10)`. -/
def getSettingLWDuration (s : Option Settings) : Nat :=
  match s with
  | none => 10
  | some st =>
    match st.luckyWheel with
    | none => 10
    | some lw => orDefaultNat lw.duration 10

/-- `getSetting('luckyWheel', 'keyword', 'GAME')`. -/
def getSettingLWKeyword (s : Option Settings) : String :=
  match s with
  | none => "GAME"
  | some st =>
    match st.luckyWheel with
    | none => "GAME"
    | some lw => orDefaultStr lw.keyword "GAME"

/-- DJ system `getSetting('requestDuration', 30)`. -/
def getSettingDJRequest (s : Option Settings) : Nat :=
  match s with
  | none => 30
  | some st =>
    match st.djGame with
    | none => 30
    | some dj => orDefaultNat dj.requestDuration 30

/-- DJ system `getSetting('votingDuration', 30)`. -/
def getSettingDJVoting (s : Option Settings) : Nat :=
  match s with
  | none => 30
  | some st =>
    match st.djGame with
    | none => 30
    | some dj => orDefaultNat dj.votingDuration 30

/-- The enhanced user-profile payload handed to `addLuckyWheelEntry`. -/
structure UserProfile where
  profilePicture : Option String := none
  profilePictureMedium : Option String := none
  profilePictureLarge : Option String := none
deriving DecidableEq

/-- JS `a || b` on possibly-absent strings (empty string is falsy). -/
def jsOrStr (a b : Option String) : Option String :=
  match a with
  | some s => if s = "" then b else some s
  | none => b

/-- The profile-picture extraction and URL validation of `addLuckyWheelEntry`:
best of large/medium/plain, then reset to null unless it starts with "http"
(an all-falsy chain leaves the final falsy value in place). -/
def extractProfilePicture : Option UserProfile → Option String
  | none => none
  | some up =>
    match jsOrStr up.profilePictureLarge (jsOrStr up.profilePictureMedium up.profilePicture) with
    | none => none
    | some s => if s.startsWith "http" then some s else if s = "" then some s else none

/-- One Lucky Wheel entry record. -/
structure LWEntry where
  username : String
  message : String
  timestamp : Nat
  entryId : String
  profilePicture : Option String
deriving DecidableEq

/-- The `luckywheel` game object (the `type` field of the source is the
constructor tag of `Game` below). -/
structure LuckyWheelGame where
  sessionId : String
  status : String
  entries : List LWEntry
  startTime : Nat
  duration : Nat
  endTime : Nat
  winner : Option LWEntry
  keyword : String
  actualEndTime : Option Nat := none
deriving DecidableEq

/-- A recorded poll vote (`{ username, timestamp }`). -/
structure PollVote where
  username : String
  timestamp : Nat
deriving DecidableEq

/-- One poll option `{ id, text, keyword, votes }` (`votes` defaulted to `[]`,
as the source does lazily). -/
structure PollOption where
  id : String
  text : String
  keyword : String
  votes : List PollVote := []
deriving DecidableEq

/-- An option as it appears in `endPoll`'s computed `results`. -/
structure PollResult where
  id : String
  text : String
  keyword : String
  votes : List PollVote
  voteCount : Nat
  percentage : Int
deriving DecidableEq

/-- The `poll` game object. -/
structure PollGame where
  sessionId : String
  status : String
  question : String
  options : List PollOption
  startTime : Nat
  duration : Nat
  endTime : Nat
  votes : List (String × String)
  results : Option (List PollResult) := none
  winner : Option PollResult := none
  actualEndTime : Option Nat := none
deriving DecidableEq

/-- One race participant record. -/
structure RaceParticipant where
  username : String
  position : ℚ
  speed : ℚ
  lastComment : Nat
  commentCount : Nat
  avatar : String
deriving DecidableEq

/-- The `race` game object. -/
structure RaceGame where
  sessionId : String
  status : String
  participants : List (String × RaceParticipant)
  startTime : Nat
  duration : Nat
  endTime : Nat
  winner : Option RaceParticipant
  raceDistance : Nat
  actualEndTime : Option Nat := none
deriving DecidableEq

/-- The tagged union of the gaming system's `activeGames` values; the
source's `type` string field is this constructor tag (each constructor site
sets it to the matching literal, so the duck-typed `game.type !== '...'`
checks become constructor matches). -/
inductive Game where
  | lucky (g : LuckyWheelGame)
  | poll (g : PollGame)
  | race (g : RaceGame)
deriving DecidableEq

/-- `game.status` of any stored game. -/
def Game.status : Game → String
  | .lucky g => g.status
  | .poll g => g.status
  | .race g => g.status

/-- `game.endTime` of any stored game. -/
def Game.endTime : Game → Nat
  | .lucky g => g.endTime
  | .poll g => g.endTime
  | .race g => g.endTime

/-- A record pushed onto `this.gameHistory` (`{...game, <extra counter>}`). -/
inductive GHist where
  | lucky (g : LuckyWheelGame) (totalEntries : Nat)
  | poll (g : PollGame) (totalVotes : Nat)
  | race (g : RaceGame) (totalParticipants : Nat)
deriving DecidableEq

/-- Per-song request tally: `{ count, users: Set }` (`users` as an
insertion-ordered list with guarded insertion). -/
structure SongData where
  count : Nat
  users : List String
deriving DecidableEq

/-- One labelled entry of `topSongs`. -/
structure TopSong where
  letter : String
  name : String
  requestCount : Nat
  voters : List String
deriving DecidableEq

/-- Per-label vote tally: `{ count, users: Set }`. -/
structure VoteData where
  count : Nat
  users : List String
deriving DecidableEq

/-- The DJ-game winner record set by `endVotingPhase`. -/
structure DJWinner where
  letter : String
  song : String
  votes : Nat
  requestCount : Nat
deriving DecidableEq

/-- One playlist entry appended per completed round. -/
structure PlaylistEntry where
  song : String
  winner : DJWinner
  round : Nat
  timestamp : Nat
deriving DecidableEq

/-- The `liveStats` block (`requestsPerSecond` kept as the exact rational the
source formats with `toFixed(2)`). -/
structure LiveStats where
  requestsPerSecond : ℚ
  topRequesters : List (String × Nat)
  popularSongs : List (String × Nat)
deriving DecidableEq

/-- The `djgame` game object (the `type: 'djgame'` field is implicit: this
is the only shape the DJ system's `activeGames` map ever stores). -/
structure DJGame where
  sessionId : String
  status : String
  phase : String
  startTime : Nat
  duration : Nat
  endTime : Nat
  songRequests : List (String × SongData)
  topSongs : List TopSong
  votes : List (String × VoteData)
  currentRound : Nat
  winner : Option DJWinner
  playlist : List PlaylistEntry
  autoLoop : Bool
  participants : List String
  totalRequests : Nat
  uniqueUsers : Nat
  phaseStartTime : Nat
  liveStats : LiveStats
  actualEndTime : Option Nat := none
deriving DecidableEq

/-- A record pushed onto the DJ system's `gameHistory`
(`{...game, totalRounds, totalSongs, finalPlaylist}`; the final playlist is
already inside the copied game). -/
structure DJHist where
  game : DJGame
  totalRounds : Nat
  totalSongs : Nat
deriving DecidableEq

/-- The `DJGameSystem` instance state. -/
structure DJGameSystem where
  activeGames : List (String × DJGame)
  gameHistory : List DJHist
  settings : Option Settings
deriving DecidableEq

/-- The `GamingSystem` instance state (it owns a nested `DJGameSystem`, as in
the source constructor). -/
structure GamingSystem where
  activeGames : List (String × Game)
  gameHistory : List GHist
  dj : DJGameSystem
  settings : Option Settings
deriving DecidableEq

/-- A freshly constructed `GamingSystem` (both systems load the same settings
document at construction). -/
def GamingSystem.init (settings : Option Settings) : GamingSystem :=
  { activeGames := [], gameHistory := [],
    dj := { activeGames := [], gameHistory := [], settings }, settings }

/-- `refreshSettings` / a completed `loadSettings`: replace the settings
snapshot with what the database now holds. In the source,
`GamingSystem.refreshSettings` reloads only its own snapshot (not the DJ
subsystem's, whose snapshot changes only when its own `loadSettings` runs). -/
def GamingSystem.refreshSettings (sys : GamingSystem) (s : Option Settings) : GamingSystem :=
  { sys with settings := s }

/-- The DJ subsystem's `loadSettings` completing with fresh database data. -/
def DJGameSystem.refreshSettings (d : DJGameSystem) (s : Option Settings) : DJGameSystem :=
  { d with settings := s }

/-- Stable insert for a descending sort by key: the new element goes before
the first strictly smaller key, after all keys `≥` its own. -/
def orderedInsertDesc {α : Type} {β : Type} [LinearOrder β] (key : α → β) (x : α) :
    List α → List α
  | [] => [x]
  | y :: ys => if key y ≤ key x then x :: y :: ys else y :: orderedInsertDesc key x ys

/-- Stable descending sort by key — the semantics of the source's
`.sort((a, b) => b.<key> - a.<key>)` (JS `Array.prototype.sort` is stable). -/
def sortByKeyDesc {α : Type} {β : Type} [LinearOrder β] (key : α → β) :
    List α → List α
  | [] => []
  | x :: xs => orderedInsertDesc key x (sortByKeyDesc key xs)

/-- The value returned by `endLuckyWheel` (the `gameData` self-reference is
the stored game itself and is omitted from the copy). -/
structure LWResult where
  winner : Option LWEntry
  entries : List LWEntry
  totalEntries : Nat
deriving DecidableEq

/-- `startLuckyWheel(sessionId, duration = null)`; `duration || setting*1000`
treats an explicit `0` as falsy, like the source. -/
def startLuckyWheel (sys : GamingSystem) (sessionId : String) (duration : Option Nat)
    (now : Nat) : LuckyWheelGame × GamingSystem :=
  let gameDuration :=
    match duration with
    | some d => if d = 0 then getSettingLWDuration sys.settings * 1000 else d
    | none => getSettingLWDuration sys.settings * 1000
  let keyword := getSettingLWKeyword sys.settings
  let gameData : LuckyWheelGame :=
    { sessionId, status := "collecting", entries := [], startTime := now,
      duration := gameDuration, endTime := now + gameDuration, winner := none, keyword }
  (gameData,
   { sys with activeGames := mapSet sys.activeGames sessionId (Game.lucky gameData) })

/-- `addLuckyWheelEntry(sessionId, username, message, userProfile)`. -/
def addLuckyWheelEntry (sys : GamingSystem) (sessionId username message : String)
    (userProfile : Option UserProfile) (now : Nat) : Bool × GamingSystem :=
  match mapGet sys.activeGames sessionId with
  | some (Game.lucky g) =>
    if g.status ≠ "collecting" then (false, sys)
    else
      let gameKeyword := if g.keyword = "" then "GAME" else g.keyword
      if wordBoundaryTest gameKeyword.toUpper message.toUpper then
        match g.entries.find? (fun e => e.username == username) with
        | some _ => (false, sys)
        | none =>
          let entry : LWEntry :=
            { username, message, timestamp := now,
              entryId := sessionId ++ "-" ++ username ++ "-" ++ toString now,
              profilePicture := extractProfilePicture userProfile }
          let g' := { g with entries := g.entries ++ [entry] }
          (true, { sys with activeGames := mapSet sys.activeGames sessionId (Game.lucky g') })
      else (false, sys)
  | _ => (false, sys)

/-- `endLuckyWheel(sessionId)`; `rand` stands for the `Math.random()` draw,
used as `rand % entries.length` for `Math.floor(random * length)`. -/
def endLuckyWheel (sys : GamingSystem) (sessionId : String) (rand now : Nat) :
    Option LWResult × GamingSystem :=
  match mapGet sys.activeGames sessionId with
  | some (Game.lucky g) =>
    if g.status = "ended" ∨ g.winner ≠ none then
      (some ⟨g.winner, g.entries, g.entries.length⟩, sys)
    else
      let g1 := { g with status := "ended", actualEndTime := some now }
      let sys1 := { sys with activeGames := mapSet sys.activeGames sessionId (Game.lucky g1) }
      match g1.entries with
      | [] => (some ⟨none, [], 0⟩, sys1)
      | e :: es =>
        let winner := (e :: es).getD (rand % (e :: es).length) e
        let g2 := { g1 with winner := some winner }
        (some ⟨some winner, g2.entries, g2.entries.length⟩,
         { sys1 with
             activeGames := mapSet sys1.activeGames sessionId (Game.lucky g2),
             gameHistory := sys1.gameHistory ++ [GHist.lucky g2 g2.entries.length] })
  | _ => (none, sys)

/-- `startPoll(sessionId, question, options, duration = 30000)`. -/
def startPoll (sys : GamingSystem) (sessionId question : String)
    (options : List PollOption) (duration : Nat) (now : Nat) : PollGame × GamingSystem :=
  let gameData : PollGame :=
    { sessionId, status := "active", question, options, startTime := now,
      duration, endTime := now + duration, votes := [] }
  (gameData,
   { sys with activeGames := mapSet sys.activeGames sessionId (Game.poll gameData) })

/-- Mutate the first element satisfying `p` in place (the JS `find` returns a
reference into `options`, which the source then mutates). -/
def updateFirst {α : Type} (p : α → Bool) (f : α → α) : List α → List α
  | [] => []
  | x :: xs => if p x then f x :: xs else x :: updateFirst p f xs

/-- `addPollVote(sessionId, username, message)`. -/
def addPollVote (sys : GamingSystem) (sessionId username message : String) (now : Nat) :
    Bool × GamingSystem :=
  match mapGet sys.activeGames sessionId with
  | some (Game.poll g) =>
    if g.status ≠ "active" then (false, sys)
    else
      let opt? := g.options.find? (fun o => strIncludes message.toUpper o.keyword.toUpper)
      match opt? with
      | some matched =>
        if (mapGet g.votes username).isSome then (false, sys)
        else
          let g' :=
            { g with
                votes := mapSet g.votes username matched.id,
                options := updateFirst (fun o => strIncludes message.toUpper o.keyword.toUpper)
                  (fun o => { o with votes := o.votes ++ [⟨username, now⟩] }) g.options }
          (true, { sys with activeGames := mapSet sys.activeGames sessionId (Game.poll g') })
      | none => (false, sys)
  | _ => (false, sys)

/-- `Math.round` over the exact rational value. -/
def jsRound (q : ℚ) : Int := Int.floor (q + 1/2)

/-- One element of the `results` array computed by `endPoll`:
`{...option, voteCount, percentage}`. -/
def mkPollResult (totalVotes : Nat) (o : PollOption) : PollResult :=
  { id := o.id, text := o.text, keyword := o.keyword, votes := o.votes,
    voteCount := o.votes.length,
    percentage :=
      if 0 < totalVotes then jsRound ((o.votes.length : ℚ) / (totalVotes : ℚ) * 100)
      else 0 }

/-- The `results` array computed by `endPoll`. -/
def pollResults (options : List PollOption) (totalVotes : Nat) : List PollResult :=
  options.map (mkPollResult totalVotes)

/-- The reducer of `endPoll`'s winner search:
`(prev, current) => current.voteCount > prev.voteCount ? current : prev`
(strict comparison, so the first maximum in list order is kept). -/
def pollPick (prev cur : PollResult) : PollResult :=
  if prev.voteCount < cur.voteCount then cur else prev

/-- What `endPoll` hands back: `null` (no poll game), the thrown `TypeError`
of `[].reduce` (no options), or the results record. -/
inductive PollOutcome where
  | noGame
  | threw
  | ok (results : List PollResult) (winner : PollResult) (totalVotes : Nat)
deriving DecidableEq

/-- `endPoll(sessionId)`. The status/`actualEndTime` writes happen before the
winner `reduce`, so they survive even the empty-options throw. -/
def endPoll (sys : GamingSystem) (sessionId : String) (now : Nat) :
    PollOutcome × GamingSystem :=
  match mapGet sys.activeGames sessionId with
  | some (Game.poll g) =>
    let g1 := { g with status := "ended", actualEndTime := some now }
    let sys1 := { sys with activeGames := mapSet sys.activeGames sessionId (Game.poll g1) }
    match pollResults g1.options g1.votes.length with
    | [] => (.threw, sys1)
    | r0 :: rs =>
      let winner := rs.foldl pollPick r0
      let g2 := { g1 with results := some (r0 :: rs), winner := some winner }
      (.ok (r0 :: rs) winner g1.votes.length,
       { sys1 with
           activeGames := mapSet sys1.activeGames sessionId (Game.poll g2),
           gameHistory := sys1.gameHistory ++ [GHist.poll g2 g2.votes.length] })
  | _ => (.noGame, sys)

/-- The value returned by `endRace`. -/
structure RaceResult where
  winner : Option RaceParticipant
  participants : List RaceParticipant
  totalParticipants : Nat
deriving DecidableEq

/-- `startRace(sessionId, duration = 20000)`. -/
def startRace (sys : GamingSystem) (sessionId : String) (duration : Nat) (now : Nat) :
    RaceGame × GamingSystem :=
  let gameData : RaceGame :=
    { sessionId, status := "active", participants := [], startTime := now,
      duration, endTime := now + duration, winner := none, raceDistance := 100 }
  (gameData,
   { sys with activeGames := mapSet sys.activeGames sessionId (Game.race gameData) })

/-- `endRace(sessionId)`. -/
def endRace (sys : GamingSystem) (sessionId : String) (now : Nat) :
    Option RaceResult × GamingSystem :=
  match mapGet sys.activeGames sessionId with
  | some (Game.race g) =>
    let g1 := { g with status := "ended", actualEndTime := some now }
    let participants := sortByKeyDesc (fun p => p.position) (g1.participants.map Prod.snd)
    let g2 :=
      { g1 with
          winner := match g1.winner with
            | some w => some w
            | none => participants.head? }
    (some ⟨g2.winner, participants, participants.length⟩,
     { sys with
         activeGames := mapSet sys.activeGames sessionId (Game.race g2),
         gameHistory := sys.gameHistory ++ [GHist.race g2 participants.length] })
  | _ => (none, sys)

/-- `addRaceParticipant(sessionId, username, message)`. `moveD` stands for the
`Math.random() * 5 + 3` draw, `spd` for `Math.random() * 2 + 1`, and `male`
for the avatar coin flip. -/
def addRaceParticipant (sys : GamingSystem) (sessionId username message : String)
    (moveD spd : ℚ) (male : Bool) (now : Nat) : Bool × GamingSystem :=
  match mapGet sys.activeGames sessionId with
  | some (Game.race g) =>
    if g.status ≠ "active" then (false, sys)
    else
      let participant :=
        match mapGet g.participants username with
        | some p => p
        | none =>
          { username, position := 0, speed := spd, lastComment := now, commentCount := 1,
            avatar := if male then "🏃‍♂️" else "🏃‍♀️" }
      let updated :=
        { participant with
            position := min 100 (participant.position + moveD),
            lastComment := now,
            commentCount := participant.commentCount + 1 }
      let g1 := { g with participants := mapSet g.participants username updated }
      let sys1 := { sys with activeGames := mapSet sys.activeGames sessionId (Game.race g1) }
      if 100 ≤ updated.position ∧ g1.winner = none then
        let g2 := { g1 with winner := some updated }
        let sys2 := { sys1 with activeGames := mapSet sys1.activeGames sessionId (Game.race g2) }
        (true, (endRace sys2 sessionId now).2)
      else (true, sys1)
  | _ => (false, sys)

/-- `cleanup()` of the gaming system: drop a game when
`status === 'ended' || now > endTime + 60000`. -/
def cleanup (sys : GamingSystem) (now : Nat) : GamingSystem :=
  { sys with
      activeGames := sys.activeGames.filter fun e =>
        !(e.2.status == "ended" || decide (e.2.endTime + 60000 < now)) }

/-- The recognized request markers stripped by `addSongRequest`. -/
def songPrefixList : List String := ["PLAY:", "SONG:", "REQUEST:", "MUSIC:"]

/-- The prefix-stripping loop of `addSongRequest`: the first marker that the
uppercased text starts with is cut off (then re-trimmed) and the loop breaks. -/
def stripFirstMatch : List String → List Char → List Char
  | [], s => s
  | p :: ps, s =>
    if (s.map Char.toUpper).take p.data.length = p.data then trimChars (s.drop p.data.length)
    else stripFirstMatch ps s

/-- Trimmed, prefix-stripped request text (the value whose length is gated). -/
def strippedSongName (message : String) : List Char :=
  stripFirstMatch songPrefixList (trimChars message.data)

/-- The per-user request tally rebuilt by the live-stats helpers. -/
def userRequestCounts (reqs : List (String × SongData)) : List (String × Nat) :=
  reqs.foldl
    (fun m e => e.2.users.foldl (fun m' u => mapSet m' u ((mapGet m' u).getD 0 + 1)) m) []

/-- `getTopRequesters` (top 5 per-user counts, descending). -/
def topRequestersOf (reqs : List (String × SongData)) : List (String × Nat) :=
  (sortByKeyDesc Prod.snd (userRequestCounts reqs)).take 5

/-- `getPopularSongs` (top 5 songs by count, descending). -/
def popularSongsOf (reqs : List (String × SongData)) : List (String × Nat) :=
  ((sortByKeyDesc (fun e => e.2.count) reqs).take 5).map (fun e => (e.1, e.2.count))

/-- `updateLiveStats(game)`. -/
def updateLiveStats (g : DJGame) (now : Nat) : DJGame :=
  let phaseDuration : ℚ := ((now : ℚ) - (g.phaseStartTime : ℚ)) / 1000
  { g with
      liveStats :=
        { requestsPerSecond :=
            if 0 < phaseDuration then (g.totalRequests : ℚ) / phaseDuration
            else g.liveStats.requestsPerSecond,
          topRequesters := topRequestersOf g.songRequests,
          popularSongs := popularSongsOf g.songRequests } }

/-- `startDJGame(sessionId)`. -/
def startDJGame (d : DJGameSystem) (sessionId : String) (now : Nat) :
    DJGame × DJGameSystem :=
  let requestDuration := getSettingDJRequest d.settings * 1000
  let gameData : DJGame :=
    { sessionId, status := "requesting", phase := "song-request", startTime := now,
      duration := requestDuration, endTime := now + requestDuration,
      songRequests := [], topSongs := [], votes := [], currentRound := 1, winner := none,
      playlist := [], autoLoop := true, participants := [], totalRequests := 0,
      uniqueUsers := 0, phaseStartTime := now, liveStats := ⟨0, [], []⟩ }
  (gameData, { d with activeGames := mapSet d.activeGames sessionId gameData })

/-- `addSongRequest(sessionId, username, message)`. Note that the trailing
`return true` fires even when the requester was already counted for the song. -/
def addSongRequest (d : DJGameSystem) (sessionId username message : String) (now : Nat) :
    Bool × DJGameSystem :=
  match mapGet d.activeGames sessionId with
  | none => (false, d)
  | some g =>
    if g.phase ≠ "song-request" then (false, d)
    else
      let stripped := strippedSongName message
      if stripped.length < 2 then (false, d)
      else
        let songName := String.mk (titleCase stripped)
        let requests :=
          if (mapGet g.songRequests songName).isNone then
            mapSet g.songRequests songName ⟨0, []⟩
          else g.songRequests
        let songData := (mapGet requests songName).getD ⟨0, []⟩
        if username ∈ songData.users then
          (true,
           { d with activeGames := mapSet d.activeGames sessionId { g with songRequests := requests } })
        else
          let g1 :=
            { g with
                songRequests := mapSet requests songName ⟨songData.count + 1, songData.users ++ [username]⟩,
                participants :=
                  if username ∈ g.participants then g.participants else g.participants ++ [username],
                totalRequests := g.totalRequests + 1 }
          let g2 := updateLiveStats { g1 with uniqueUsers := g1.participants.length } now
          (true, { d with activeGames := mapSet d.activeGames sessionId g2 })

/-- The value returned by `endDJGame` (`gameData` self-reference omitted). -/
structure DJEndResult where
  totalRounds : Nat
  playlist : List PlaylistEntry
deriving DecidableEq

/-- `endDJGame(sessionId)`. -/
def endDJGame (d : DJGameSystem) (sessionId : String) (now : Nat) :
    Option DJEndResult × DJGameSystem :=
  match mapGet d.activeGames sessionId with
  | none => (none, d)
  | some g =>
    let g1 := { g with status := "ended", phase := "ended", actualEndTime := some now }
    (some ⟨g1.currentRound, g1.playlist⟩,
     { d with
         activeGames := mapSet d.activeGames sessionId g1,
         gameHistory := d.gameHistory ++ [⟨g1, g1.currentRound, g1.playlist.length⟩] })

/-- `sortedSongs.map((song, index) => ({letter: String.fromCharCode(65 + index), ...}))`:
label the i-th song `A`, `B`, `C`, `D` in order. -/
def labelTopSongs (i : Nat) : List (String × SongData) → List TopSong
  | [] => []
  | s :: rest =>
    { letter := String.singleton (Char.ofNat (65 + i)), name := s.1,
      requestCount := s.2.count, voters := s.2.users } :: labelTopSongs (i + 1) rest

/-- `advanceToVotingPhase(sessionId)`. -/
def advanceToVotingPhase (d : DJGameSystem) (sessionId : String) (now : Nat) :
    Bool × DJGameSystem :=
  match mapGet d.activeGames sessionId with
  | none => (false, d)
  | some g =>
    let sortedSongs := (sortByKeyDesc (fun e => e.2.count) g.songRequests).take 4
    if sortedSongs.isEmpty then (false, (endDJGame d sessionId now).2)
    else
      let topSongs := labelTopSongs 0 sortedSongs
      let votingDuration := getSettingDJVoting d.settings * 1000
      let g1 :=
        { g with
            topSongs, phase := "voting", status := "voting",
            duration := votingDuration, endTime := now + votingDuration }
      (true, { d with activeGames := mapSet d.activeGames sessionId g1 })

/-- `addVote(sessionId, username, message)`. -/
def addVote (d : DJGameSystem) (sessionId username message : String) :
    Bool × DJGameSystem :=
  match mapGet d.activeGames sessionId with
  | none => (false, d)
  | some g =>
    if g.phase ≠ "voting" then (false, d)
    else
      let vote := String.mk ((trimChars message.data).map Char.toUpper)
      if vote ∈ (["A", "B", "C", "D"] : List String) then
        let songIndex := (vote.data.headD 'A').toNat - 65
        match g.topSongs.get? songIndex with
        | none => (false, d)
        | some _ =>
          let votes1 :=
            if (mapGet g.votes vote).isNone then mapSet g.votes vote ⟨0, []⟩ else g.votes
          let voteData := (mapGet votes1 vote).getD ⟨0, []⟩
          if username ∈ voteData.users then
            (false, { d with activeGames := mapSet d.activeGames sessionId { g with votes := votes1 } })
          else
            let g1 :=
              { g with votes := mapSet votes1 vote ⟨voteData.count + 1, voteData.users ++ [username]⟩ }
            (true, { d with activeGames := mapSet d.activeGames sessionId g1 })
      else (false, d)

/-- `startNextRound(sessionId)`. -/
def startNextRound (d : DJGameSystem) (sessionId : String) (now : Nat) :
    Bool × DJGameSystem :=
  match mapGet d.activeGames sessionId with
  | none => (false, d)
  | some g =>
    let duration := getSettingDJRequest d.settings * 1000
    let g1 :=
      { g with
          currentRound := g.currentRound + 1, phase := "song-request",
          status := "requesting", songRequests := [], topSongs := [], votes := [],
          winner := none, duration, endTime := now + duration }
    (true, { d with activeGames := mapSet d.activeGames sessionId g1 })

/-- `endVotingPhase(sessionId)`: scan the votes map (insertion order, strict
`>` keeps the first maximum), record the winner, extend the playlist, and
either wait for the auto-loop timer or end the game. -/
def endVotingPhase (d : DJGameSystem) (sessionId : String) (now : Nat) :
    Option DJWinner × DJGameSystem :=
  match mapGet d.activeGames sessionId with
  | none => (none, d)
  | some g =>
    let best := g.votes.foldl
      (fun acc e => if acc.2 < e.2.count then (some e.1, e.2.count) else acc)
      ((none : Option String), 0)
    match best.1 with
    | none => (none, (endDJGame d sessionId now).2)
    | some letter =>
      let songIndex := (letter.data.headD 'A').toNat - 65
      match g.topSongs.get? songIndex with
      | none => (none, d)
      | some winningSong =>
        let w : DJWinner := ⟨letter, winningSong.name, best.2, winningSong.requestCount⟩
        let g1 :=
          { g with
              winner := some w,
              playlist := g.playlist ++ [⟨winningSong.name, w, g.currentRound, now⟩] }
        let d1 := { d with activeGames := mapSet d.activeGames sessionId g1 }
        if g1.autoLoop then (some w, d1)
        else (some w, (endDJGame d1 sessionId now).2)

/-- The DJ system's `cleanup()` (every stored game has `type === 'djgame'`). -/
def DJGameSystem.cleanup (d : DJGameSystem) (now : Nat) : DJGameSystem :=
  { d with
      activeGames := d.activeGames.filter fun e =>
        !(e.2.status == "ended" || decide (e.2.endTime + 60000 < now)) }

/-- A pending `setTimeout` callback: each closure captures only the method to
call and the `sessionId` argument (never the game instance that armed it). -/
inductive TimerAction where
  | endLuckyT (sessionId : String)
  | endPollT (sessionId : String)
  | endRaceT (sessionId : String)
  | advanceVotingT (sessionId : String)
  | endVotingT (sessionId : String)
  | nextRoundT (sessionId : String)
  | endDJT (sessionId : String)
deriving DecidableEq

/-- Firing a pending deadline callback against the current system state. -/
def fireTimer (a : TimerAction) (sys : GamingSystem) (rand now : Nat) : GamingSystem :=
  match a with
  | .endLuckyT sid => (endLuckyWheel sys sid rand now).2
  | .endPollT sid => (endPoll sys sid now).2
  | .endRaceT sid => (endRace sys sid now).2
  | .advanceVotingT sid => { sys with dj := (advanceToVotingPhase sys.dj sid now).2 }
  | .endVotingT sid => { sys with dj := (endVotingPhase sys.dj sid now).2 }
  | .nextRoundT sid => { sys with dj := (startNextRound sys.dj sid now).2 }
  | .endDJT sid => { sys with dj := (endDJGame sys.dj sid now).2 }

theorem mapGet_mapSet_self {α : Type} (m : List (String × α)) (k : String) (v : α) :
    mapGet (mapSet m k v) k = some v := by
  induction m with
  | nil => simp [mapGet, mapSet]
  | cons hd tl ih =>
    obtain ⟨k', v'⟩ := hd
    by_cases h : k' = k
    · simp [mapGet, mapSet, h]
    · simp [mapGet, mapSet, h, ih]

theorem mapGet_mapSet_ne {α : Type} (m : List (String × α)) (k k' : String) (v : α)
    (h : k' ≠ k) : mapGet (mapSet m k v) k' = mapGet m k' := by
  induction m with
  | nil => simp [mapGet, mapSet, Ne.symm h]
  | cons hd tl ih =>
    obtain ⟨k₀, v₀⟩ := hd
    by_cases h₀ : k₀ = k
    · subst h₀
      simp [mapGet, mapSet, Ne.symm h]
    · simp only [mapSet, if_neg h₀]
      by_cases h₁ : k₀ = k'
      · simp [mapGet, h₁]
      · simp [mapGet, h₁, ih]

theorem mapSet_self {α : Type} (m : List (String × α)) (k : String) (v : α)
    (h : mapGet m k = some v) : mapSet m k v = m := by
  induction m with
  | nil => simp [mapGet] at h
  | cons hd tl ih =>
    obtain ⟨k₀, v₀⟩ := hd
    by_cases h₀ : k₀ = k
    · subst h₀
      simp [mapGet] at h
      simp [mapSet, ← h]
    · simp only [mapGet, if_neg h₀] at h
      simp [mapSet, h₀, ih h]

theorem mem_orderedInsertDesc {α β : Type} [LinearOrder β] (key : α → β) (x a : α)
    (l : List α) : a ∈ orderedInsertDesc key x l ↔ a = x ∨ a ∈ l := by
  induction l with
  | nil => simp [orderedInsertDesc]
  | cons y ys ih =>
    by_cases h : key y ≤ key x
    · simp [orderedInsertDesc, h]
    · simp only [orderedInsertDesc, if_neg h, List.mem_cons, ih]
      tauto

theorem length_orderedInsertDesc {α β : Type} [LinearOrder β] (key : α → β) (x : α)
    (l : List α) : (orderedInsertDesc key x l).length = l.length + 1 := by
  induction l with
  | nil => simp [orderedInsertDesc]
  | cons y ys ih =>
    by_cases h : key y ≤ key x
    · simp [orderedInsertDesc, h]
    · simp [orderedInsertDesc, h, ih]

theorem length_sortByKeyDesc {α β : Type} [LinearOrder β] (key : α → β) (l : List α) :
    (sortByKeyDesc key l).length = l.length := by
  induction l with
  | nil => rfl
  | cons x xs ih => simp [sortByKeyDesc, length_orderedInsertDesc, ih]

theorem pairwise_orderedInsertDesc {α β : Type} [LinearOrder β] (key : α → β) (x : α)
    (l : List α) (h : l.Pairwise (fun a b => key b ≤ key a)) :
    (orderedInsertDesc key x l).Pairwise (fun a b => key b ≤ key a) := by
  induction l with
  | nil => simp [orderedInsertDesc]
  | cons y ys ih =>
    rcases List.pairwise_cons.mp h with ⟨hy, hys⟩
    by_cases hk : key y ≤ key x
    · simp only [orderedInsertDesc, if_pos hk]
      refine List.pairwise_cons.mpr ⟨?_, h⟩
      intro b hb
      rcases List.mem_cons.mp hb with hb | hb
      · exact hb ▸ hk
      · exact le_trans (hy b hb) hk
    · simp only [orderedInsertDesc, if_neg hk]
      refine List.pairwise_cons.mpr ⟨?_, ih hys⟩
      intro b hb
      rcases (mem_orderedInsertDesc key x b ys).mp hb with hb | hb
      · exact hb ▸ le_of_lt (lt_of_not_le hk)
      · exact hy b hb

theorem pairwise_sortByKeyDesc {α β : Type} [LinearOrder β] (key : α → β) (l : List α) :
    (sortByKeyDesc key l).Pairwise (fun a b => key b ≤ key a) := by
  induction l with
  | nil => simp [sortByKeyDesc]
  | cons x xs ih => exact pairwise_orderedInsertDesc key x _ ih

theorem filter_orderedInsertDesc {α β : Type} [LinearOrder β] (key : α → β) (x : α)
    (l : List α) (c : β) :
    (orderedInsertDesc key x l).filter (fun a => decide (key a = c)) =
      if key x = c then x :: l.filter (fun a => decide (key a = c))
      else l.filter (fun a => decide (key a = c)) := by
  induction l with
  | nil =>
    by_cases h : key x = c <;> simp [orderedInsertDesc, List.filter_cons, h]
  | cons y ys ih =>
    by_cases hk : key y ≤ key x
    · simp only [orderedInsertDesc, if_pos hk]
      by_cases h : key x = c <;> simp [List.filter_cons, h]
    · have hgt : key x < key y := lt_of_not_le hk
      simp only [orderedInsertDesc, if_neg hk]
      by_cases h : key x = c
      · have hy : ¬(key y = c) := by
          subst h
          exact ne_of_gt hgt
        simp [List.filter_cons, h, hy, ih]
      · by_cases hy : key y = c <;> simp [List.filter_cons, h, hy, ih]

theorem filter_sortByKeyDesc {α β : Type} [LinearOrder β] (key : α → β) (l : List α)
    (c : β) :
    (sortByKeyDesc key l).filter (fun a => decide (key a = c)) =
      l.filter (fun a => decide (key a = c)) := by
  induction l with
  | nil => rfl
  | cons x xs ih =>
    by_cases h : key x = c <;>
      simp [sortByKeyDesc, filter_orderedInsertDesc, h, List.filter, ih]

theorem endLuckyWheel_cached (sys : GamingSystem) (sid : String) (rand now : Nat)
    (g : LuckyWheelGame) (hg : mapGet sys.activeGames sid = some (Game.lucky g))
    (hs : g.status = "ended") :
    endLuckyWheel sys sid rand now = (some ⟨g.winner, g.entries, g.entries.length⟩, sys) := by
  simp [endLuckyWheel, hg, hs]

theorem endDJGame_double (d : DJGameSystem) (sid : String) (now1 now2 : Nat) (g : DJGame)
    (hg : mapGet d.activeGames sid = some g) :
    (endDJGame (endDJGame d sid now1).2 sid now2).1 = (endDJGame d sid now1).1 ∧
    (endDJGame (endDJGame d sid now1).2 sid now2).2.gameHistory.length
      = (endDJGame d sid now1).2.gameHistory.length + 1 := by
  simp [endDJGame, hg, mapGet_mapSet_self]

theorem endRace_double (sys : GamingSystem) (sid : String) (now1 now2 : Nat) (g : RaceGame)
    (hg : mapGet sys.activeGames sid = some (Game.race g)) :
    (endRace (endRace sys sid now1).2 sid now2).1 = (endRace sys sid now1).1 ∧
    (endRace (endRace sys sid now1).2 sid now2).2.gameHistory.length
      = (endRace sys sid now1).2.gameHistory.length + 1 := by
  cases hw : g.winner with
  | some w => simp [endRace, hg, mapGet_mapSet_self, hw]
  | none =>
    cases hh : (sortByKeyDesc (fun p => p.position) (g.participants.map Prod.snd)).head? with
    | some p => simp [endRace, hg, mapGet_mapSet_self, hw, hh]
    | none => simp [endRace, hg, mapGet_mapSet_self, hw, hh]

theorem endPoll_double (sys : GamingSystem) (sid : String) (now1 now2 : Nat) (g : PollGame)
    (hg : mapGet sys.activeGames sid = some (Game.poll g)) (hne : g.options ≠ []) :
    (endPoll (endPoll sys sid now1).2 sid now2).1 = (endPoll sys sid now1).1 ∧
    (∃ res w tv, (endPoll sys sid now1).1 = PollOutcome.ok res w tv) ∧
    (endPoll (endPoll sys sid now1).2 sid now2).2.gameHistory.length
      = (endPoll sys sid now1).2.gameHistory.length + 1 := by
  obtain ⟨o, os, hoo⟩ := List.exists_cons_of_ne_nil hne
  refine ⟨?_, ?_, ?_⟩
  · simp [endPoll, hg, hoo, pollResults, mapGet_mapSet_self]
  · simp only [endPoll, hg, hoo, pollResults, List.map_cons]
    exact ⟨_, _, _, rfl⟩
  · simp [endPoll, hg, hoo, pollResults, mapGet_mapSet_self]

/-- A Yes/No poll option fixture. -/
def yesOption : PollOption := { id := "1", text := "Yes", keyword := "YES", votes := [] }

/-- A running one-option poll, reached by `startPoll` from a fresh system. -/
def pollSysC1 : GamingSystem :=
  (startPoll (GamingSystem.init none) "s" "q" [yesOption] 30000 0).2

/-- A sample wheel entry. -/
def aliceEntry : LWEntry :=
  { username := "alice", message := "GAME", timestamp := 1, entryId := "s-alice-1",
    profilePicture := none }

/-- An already-ended lucky wheel game with a recorded winner. -/
def luckyGameC1 : LuckyWheelGame :=
  { sessionId := "s", status := "ended", entries := [aliceEntry], startTime := 0,
    duration := 10000, endTime := 10000, winner := some aliceEntry, keyword := "GAME" }

/-- A system holding that ended lucky wheel. -/
def luckySysC1 : GamingSystem :=
  { activeGames := [("s", Game.lucky luckyGameC1)],
    gameHistory := [], dj := { activeGames := [], gameHistory := [], settings := none },
    settings := none }

/-- A running race, reached by `startRace` from a fresh system. -/
def raceSysC1 : GamingSystem :=
  (startRace (GamingSystem.init none) "s" 20000 0).2

/-- A running DJ game, reached by `startDJGame` from a fresh DJ system. -/
def djSysC1 : DJGameSystem :=
  (startDJGame { activeGames := [], gameHistory := [], settings := none } "s" 0).2

/-- **C1 counterexample.** The claim fails on the code for Poll: after
`endPoll` has run once (the stored game's status is `ended`), a second
`endPoll` call is *not* a pure cache read — it re-runs the end transition
and pushes a second copy of the game onto `gameHistory`, mutating stored
state. Concretely, ending the one-option poll twice leaves two history
records where the claim requires one. -/
theorem C1_counterexample :
    (endPoll pollSysC1 "s" 100).2.gameHistory.length = 1 ∧
    ((mapGet (endPoll pollSysC1 "s" 100).2.activeGames "s").map Game.status = some "ended") ∧
    (endPoll (endPoll pollSysC1 "s" 100).2 "s" 200).2.gameHistory.length = 2 := by
  decide

/-- **C1 (amended).** `endLuckyWheel` is idempotent exactly as claimed: on a
game whose status is `ended` it returns the cached result and leaves the
system state untouched. For Poll, Race and DJGame a second end call never
throws (for Poll, given at least one option) and returns the same result as
the first — in particular the stored winner value is not re-selected — but
it is not a pure cache read: it appends one duplicate record to
`gameHistory`. -/
theorem C1_end_phase_idempotence :
    (∀ sys sid rand now g, mapGet sys.activeGames sid = some (Game.lucky g) →
        g.status = "ended" →
        endLuckyWheel sys sid rand now = (some ⟨g.winner, g.entries, g.entries.length⟩, sys)) ∧
    (∀ sys sid now1 now2 g, mapGet sys.activeGames sid = some (Game.poll g) →
        g.options ≠ [] →
        (endPoll (endPoll sys sid now1).2 sid now2).1 = (endPoll sys sid now1).1 ∧
        (∃ res w tv, (endPoll sys sid now1).1 = PollOutcome.ok res w tv) ∧
        (endPoll (endPoll sys sid now1).2 sid now2).2.gameHistory.length
          = (endPoll sys sid now1).2.gameHistory.length + 1) ∧
    (∀ sys sid now1 now2 g, mapGet sys.activeGames sid = some (Game.race g) →
        (endRace (endRace sys sid now1).2 sid now2).1 = (endRace sys sid now1).1 ∧
        (endRace (endRace sys sid now1).2 sid now2).2.gameHistory.length
          = (endRace sys sid now1).2.gameHistory.length + 1) ∧
    (∀ d sid now1 now2 g, mapGet d.activeGames sid = some g →
        (endDJGame (endDJGame d sid now1).2 sid now2).1 = (endDJGame d sid now1).1 ∧
        (endDJGame (endDJGame d sid now1).2 sid now2).2.gameHistory.length
          = (endDJGame d sid now1).2.gameHistory.length + 1) :=
  ⟨fun sys sid rand now g hg hs => endLuckyWheel_cached sys sid rand now g hg hs,
   fun sys sid now1 now2 g hg hne => endPoll_double sys sid now1 now2 g hg hne,
   fun sys sid now1 now2 g hg => endRace_double sys sid now1 now2 g hg,
   fun d sid now1 now2 g hg => endDJGame_double d sid now1 now2 g hg⟩

/-- Witness for C1: the amended statement evaluated on concrete systems. -/
theorem C1_witness :
    endLuckyWheel luckySysC1 "s" 0 999
      = (some ⟨some aliceEntry, [aliceEntry], 1⟩, luckySysC1) ∧
    (endPoll (endPoll pollSysC1 "s" 100).2 "s" 200).1 = (endPoll pollSysC1 "s" 100).1 ∧
    (endRace (endRace raceSysC1 "s" 5).2 "s" 6).1 = (endRace raceSysC1 "s" 5).1 ∧
    (endDJGame (endDJGame djSysC1 "s" 7).2 "s" 8).1 = (endDJGame djSysC1 "s" 7).1 := by
  refine ⟨?_, ?_, ?_, ?_⟩
  · exact C1_end_phase_idempotence.1 luckySysC1 "s" 0 999 luckyGameC1 (by decide) (by decide)
  · exact (C1_end_phase_idempotence.2.1 pollSysC1 "s" 100 200
      (startPoll (GamingSystem.init none) "s" "q" [yesOption] 30000 0).1
      (by decide) (by decide)).1
  · exact (C1_end_phase_idempotence.2.2.1 raceSysC1 "s" 5 6
      (startRace (GamingSystem.init none) "s" 20000 0).1 (by decide)).1
  · exact (C1_end_phase_idempotence.2.2.2 djSysC1 "s" 7 8
      (startDJGame { activeGames := [], gameHistory := [], settings := none } "s" 0).1
      (by decide)).1

/-- A DJ game in the voting phase with topSongs `A = "Song Alpha"`,
`B = "Song Beta"`, reached by two requests and the phase transition. -/
def djVotingSysC2 : DJGameSystem :=
  (advanceToVotingPhase
    (addSongRequest (addSongRequest djSysC1 "s" "u1" "Song Alpha" 1).2 "s" "u2" "Song Beta" 2).2
    "s" 3).2

/-- The DJ system after alice's first (accepted) vote for label A. -/
def djSysC2AfterA : DJGameSystem := (addVote djVotingSysC2 "s" "alice" "A").2

/-- A fresh DJ game record (used only as a `getD` default in witnesses). -/
def djGameZero : DJGame :=
  (startDJGame { activeGames := [], gameHistory := [], settings := none } "s" 0).1

/-- **C2 counterexample.** The dedup in `addVote` is keyed on
`(label, participant)`, not on the participant alone: after alice's accepted
vote for `A`, her vote for `B` in the same round is accepted too (`true`) and
increments B's count to 1, where the claim requires rejection and no change. -/
theorem C2_counterexample :
    (addVote djVotingSysC2 "s" "alice" "A").1 = true ∧
    (addVote djSysC2AfterA "s" "alice" "B").1 = true ∧
    ((mapGet (addVote djSysC2AfterA "s" "alice" "B").2.activeGames "s").map
        (fun g => (mapGet g.votes "B").map (fun v => v.count))) = some (some 1) := by
  decide

/-- **C2 (amended).** The vote dedup is per label: once a participant is in
the voter set of a given label, any later `addVote` by that participant with
a message normalizing to the *same* label is rejected and leaves the whole
DJ system state unchanged. (Votes by the same participant for other labels
in the same round are still accepted, as the counterexample shows.) -/
theorem C2_vote_dedup_per_label (d : DJGameSystem) (sid user msg : String) (g : DJGame)
    (hg : mapGet d.activeGames sid = some g) (vd : VoteData)
    (hvd : mapGet g.votes (String.mk ((trimChars msg.data).map Char.toUpper)) = some vd)
    (hu : user ∈ vd.users) :
    addVote d sid user msg = (false, d) := by
  simp only [addVote, hg]
  by_cases hph : g.phase ≠ "voting"
  · simp [hph]
  · simp only [if_neg hph]
    by_cases hmem : String.mk ((trimChars msg.data).map Char.toUpper)
        ∈ (["A", "B", "C", "D"] : List String)
    · simp only [if_pos hmem]
      split
      · rfl
      · simp only [hvd, Option.isNone_some, Bool.false_eq_true, if_false, Option.getD_some,
          if_pos hu]
        have hetag : ({ g with votes := g.votes } : DJGame) = g := rfl
        rw [hetag, mapSet_self d.activeGames sid g hg]
    · rw [if_neg hmem]

/-- Witness for C2: alice's duplicate `A` vote is rejected with no state
change. -/
theorem C2_witness :
    addVote djSysC2AfterA "s" "alice" "A" = (false, djSysC2AfterA) := by
  exact C2_vote_dedup_per_label djSysC2AfterA "s" "alice" "A"
    ((mapGet djSysC2AfterA.activeGames "s").getD djGameZero)
    (by rfl) ⟨1, ["alice"]⟩ (by rfl) (by decide)

/-- Is this stored game a lucky wheel (`game.type === 'luckywheel'`)? -/
def Game.isLucky : Game → Bool
  | .lucky _ => true
  | _ => false

/-- Is this stored game a poll (`game.type === 'poll'`)? -/
def Game.isPoll : Game → Bool
  | .poll _ => true
  | _ => false

/-- Is this stored game a race (`game.type === 'race'`)? -/
def Game.isRace : Game → Bool
  | .race _ => true
  | _ => false

/-- A session whose lucky wheel (started at 0, deadline 10000, timer armed)
was replaced at 5000 by a second lucky wheel for the same session. -/
def luckyReplacedSys : GamingSystem :=
  (startLuckyWheel (startLuckyWheel (GamingSystem.init none) "s" none 0).2 "s" none 5000).2

/-- **C3 counterexample.** Deadlines are keyed to the session alone: the
callback closure captures only `sessionId`, and the end transition checks only
the game *type* of whatever is now active. With the first wheel's deadline
firing at 10000 after the wheel was replaced at 5000 by a second wheel (a
different instance — the stored game is not the one that armed the timer),
the callback ends the *replacement* game in mid-collection, mutating its
state, instead of being a no-op. -/
theorem C3_counterexample :
    (mapGet luckyReplacedSys.activeGames "s")
      ≠ some (Game.lucky (startLuckyWheel (GamingSystem.init none) "s" none 0).1) ∧
    (mapGet luckyReplacedSys.activeGames "s").map Game.status = some "collecting" ∧
    ((mapGet (fireTimer (.endLuckyT "s") luckyReplacedSys 0 10000).activeGames "s").map
        Game.status = some "ended") := by
  decide

/-- **C3 (amended).** A stale deadline callback is inert exactly when the
session's current active game has a *different type* than the callback's
transition expects (or the session has none): it then returns the source's
`null`/`false` early result and leaves the entire system state unchanged.
When the replacement game has the same type, the stale callback acts on the
replacement (see the counterexample), so type — not instance identity — is
the only guard. -/
theorem C3_stale_timer_inert (sys : GamingSystem) (sid : String) (rand now : Nat) :
    (((mapGet sys.activeGames sid).map Game.isLucky).getD false = false →
        fireTimer (.endLuckyT sid) sys rand now = sys) ∧
    (((mapGet sys.activeGames sid).map Game.isPoll).getD false = false →
        fireTimer (.endPollT sid) sys rand now = sys) ∧
    (((mapGet sys.activeGames sid).map Game.isRace).getD false = false →
        fireTimer (.endRaceT sid) sys rand now = sys) ∧
    (mapGet sys.dj.activeGames sid = none →
        fireTimer (.advanceVotingT sid) sys rand now = sys ∧
        fireTimer (.endVotingT sid) sys rand now = sys ∧
        fireTimer (.nextRoundT sid) sys rand now = sys ∧
        fireTimer (.endDJT sid) sys rand now = sys) := by
  refine ⟨?_, ?_, ?_, ?_⟩
  · intro h
    cases hg : mapGet sys.activeGames sid with
    | none => simp [fireTimer, endLuckyWheel, hg]
    | some g =>
      cases g with
      | lucky lw => rw [hg] at h; simp [Game.isLucky] at h
      | poll p => simp [fireTimer, endLuckyWheel, hg]
      | race r => simp [fireTimer, endLuckyWheel, hg]
  · intro h
    cases hg : mapGet sys.activeGames sid with
    | none => simp [fireTimer, endPoll, hg]
    | some g =>
      cases g with
      | poll p => rw [hg] at h; simp [Game.isPoll] at h
      | lucky lw => simp [fireTimer, endPoll, hg]
      | race r => simp [fireTimer, endPoll, hg]
  · intro h
    cases hg : mapGet sys.activeGames sid with
    | none => simp [fireTimer, endRace, hg]
    | some g =>
      cases g with
      | race r => rw [hg] at h; simp [Game.isRace] at h
      | lucky lw => simp [fireTimer, endRace, hg]
      | poll p => simp [fireTimer, endRace, hg]
  · intro h
    refine ⟨?_, ?_, ?_, ?_⟩ <;>
      simp [fireTimer, advanceToVotingPhase, endVotingPhase, startNextRound, endDJGame, h]

/-- Witness for C3: stale callbacks of a mismatched type are no-ops on
concrete systems. -/
theorem C3_witness :
    fireTimer (.endLuckyT "s") pollSysC1 0 99 = pollSysC1 ∧
    fireTimer (.endPollT "s") luckySysC1 0 99 = luckySysC1 ∧
    fireTimer (.endRaceT "s") pollSysC1 1 99 = pollSysC1 ∧
    fireTimer (.advanceVotingT "t") pollSysC1 0 99 = pollSysC1 := by
  refine ⟨?_, ?_, ?_, ?_⟩
  · exact (C3_stale_timer_inert pollSysC1 "s" 0 99).1 (by decide)
  · exact (C3_stale_timer_inert luckySysC1 "s" 0 99).2.1 (by decide)
  · exact (C3_stale_timer_inert pollSysC1 "s" 1 99).2.2.1 (by decide)
  · exact ((C3_stale_timer_inert pollSysC1 "t" 0 99).2.2.2 (by decide)).1

theorem pollFold_first (l : List PollResult) (init : PollResult) :
    (l.foldl pollPick init = init ∧ ∀ x ∈ l, x.voteCount ≤ init.voteCount) ∨
    (∃ l1 x l2, l = l1 ++ x :: l2 ∧ l.foldl pollPick init = x ∧
        init.voteCount < x.voteCount ∧
        (∀ y ∈ l1, y.voteCount < x.voteCount) ∧
        (∀ y ∈ l2, y.voteCount ≤ x.voteCount)) := by
  induction l generalizing init with
  | nil => exact Or.inl ⟨rfl, by simp⟩
  | cons a as ih =>
    by_cases hlt : init.voteCount < a.voteCount
    · have hstep : (a :: as).foldl pollPick init = as.foldl pollPick a := by
        simp [List.foldl_cons, pollPick, if_pos hlt]
      rcases ih a with ⟨heq, hall⟩ | ⟨l1, x, l2, hsplit, hfold, hax, hl1, hl2⟩
      · exact Or.inr ⟨[], a, as, by simp, by rw [hstep, heq], hlt, by simp, hall⟩
      · refine Or.inr ⟨a :: l1, x, l2, by rw [hsplit]; rfl, by rw [hstep, hfold],
          lt_trans hlt hax, ?_, hl2⟩
        intro y hy
        rcases List.mem_cons.mp hy with h | h
        · exact h ▸ hax
        · exact hl1 y h
    · have hstep : (a :: as).foldl pollPick init = as.foldl pollPick init := by
        simp [List.foldl_cons, pollPick, if_neg hlt]
      rcases ih init with ⟨heq, hall⟩ | ⟨l1, x, l2, hsplit, hfold, hix, hl1, hl2⟩
      · refine Or.inl ⟨by rw [hstep, heq], ?_⟩
        intro x hx
        rcases List.mem_cons.mp hx with h | h
        · exact h ▸ not_lt.mp hlt
        · exact hall x h
      · refine Or.inr ⟨a :: l1, x, l2, by rw [hsplit]; rfl, by rw [hstep, hfold], hix, ?_,
          hl2⟩
        intro y hy
        rcases List.mem_cons.mp hy with h | h
        · exact h ▸ lt_of_le_of_lt (not_lt.mp hlt) hix
        · exact hl1 y h

/-- **C4.** For a poll with at least one option, `endPoll` succeeds and its
declared winner is an arg-max of the vote counts over the computed results
(options in declaration order): the winner is a result element, no result has
more votes, everything strictly before the winner in declaration order has
strictly fewer votes (first-in-list tie-break), and with zero votes cast the
winner is structurally the first option's result. -/
theorem C4_poll_winner_argmax (sys : GamingSystem) (sid : String) (now : Nat) (g : PollGame)
    (hg : mapGet sys.activeGames sid = some (Game.poll g)) (hne : g.options ≠ []) :
    ∃ res w tv, (endPoll sys sid now).1 = PollOutcome.ok res w tv ∧
      res = pollResults g.options g.votes.length ∧
      w ∈ res ∧
      (∀ o ∈ res, o.voteCount ≤ w.voteCount) ∧
      (∃ l1 l2, res = l1 ++ w :: l2 ∧ ∀ y ∈ l1, y.voteCount < w.voteCount) ∧
      ((∀ o ∈ g.options, o.votes = []) → res.head? = some w) := by
  obtain ⟨o, os, hoo⟩ := List.exists_cons_of_ne_nil hne
  have h1 : (endPoll sys sid now).1
      = PollOutcome.ok
          (mkPollResult g.votes.length o :: os.map (mkPollResult g.votes.length))
          ((os.map (mkPollResult g.votes.length)).foldl pollPick
            (mkPollResult g.votes.length o))
          g.votes.length := by
    simp [endPoll, hg, hoo, pollResults]
  have hres : pollResults g.options g.votes.length
      = mkPollResult g.votes.length o :: os.map (mkPollResult g.votes.length) := by
    simp [pollResults, hoo]
  refine ⟨_, _, _, h1, hres.symm, ?_, ?_, ?_, ?_⟩
  · rcases pollFold_first (os.map (mkPollResult g.votes.length))
        (mkPollResult g.votes.length o) with ⟨heq, _⟩ | ⟨l1, x, l2, hsplit, hfold, _, _, _⟩
    · rw [heq]
      exact List.mem_cons_self _ _
    · rw [hfold]
      exact List.mem_cons_of_mem _ (hsplit ▸ List.mem_append_right l1 (List.mem_cons_self x l2))
  · intro r hr
    rcases pollFold_first (os.map (mkPollResult g.votes.length))
        (mkPollResult g.votes.length o) with ⟨heq, hall⟩ | ⟨l1, x, l2, hsplit, hfold, hix, hl1, hl2⟩
    · rw [heq]
      rcases List.mem_cons.mp hr with h | h
      · exact h ▸ le_refl _
      · exact hall r h
    · rw [hfold]
      rcases List.mem_cons.mp hr with h | h
      · exact h ▸ le_of_lt hix
      · rw [hsplit] at h
        rcases List.mem_append.mp h with h | h
        · exact le_of_lt (hl1 r h)
        · rcases List.mem_cons.mp h with h | h
          · exact h ▸ le_refl _
          · exact hl2 r h
  · rcases pollFold_first (os.map (mkPollResult g.votes.length))
        (mkPollResult g.votes.length o) with ⟨heq, _⟩ | ⟨l1, x, l2, hsplit, hfold, hix, hl1, _⟩
    · exact ⟨[], os.map (mkPollResult g.votes.length), by rw [heq]; rfl, by simp⟩
    · refine ⟨mkPollResult g.votes.length o :: l1, l2, ?_, ?_⟩
      · rw [hfold, hsplit]
        rfl
      · intro y hy
        rw [hfold]
        rcases List.mem_cons.mp hy with h | h
        · exact h ▸ hix
        · exact hl1 y h
  · intro hz
    have hzero : ∀ x ∈ os.map (mkPollResult g.votes.length),
        x.voteCount ≤ (mkPollResult g.votes.length o).voteCount := by
      intro x hx
      rcases List.mem_map.mp hx with ⟨o', ho', rfl⟩
      have h1z : o'.votes = [] := hz o' (hoo ▸ List.mem_cons_of_mem o ho')
      have h2z : o.votes = [] := hz o (hoo ▸ List.mem_cons_self o os)
      simp [mkPollResult, h1z, h2z]
    rcases pollFold_first (os.map (mkPollResult g.votes.length))
        (mkPollResult g.votes.length o) with ⟨heq, _⟩ | ⟨l1, x, l2, hsplit, hfold, hix, _, _⟩
    · rw [heq]
      rfl
    · have hxm : x ∈ os.map (mkPollResult g.votes.length) :=
        hsplit ▸ List.mem_append_right l1 (List.mem_cons_self x l2)
      exact absurd hix (not_lt.mpr (hzero x hxm))

/-- Witness for C4: the one-option, zero-vote poll resolves to its first
option as winner. -/
theorem C4_witness :
    ∃ res w tv, (endPoll pollSysC1 "s" 7).1 = PollOutcome.ok res w tv ∧
      res = pollResults [yesOption] 0 ∧
      w ∈ res ∧
      (∀ o ∈ res, o.voteCount ≤ w.voteCount) ∧
      (∃ l1 l2, res = l1 ++ w :: l2 ∧ ∀ y ∈ l1, y.voteCount < w.voteCount) ∧
      ((∀ o ∈ [yesOption], o.votes = []) → res.head? = some w) := by
  exact C4_poll_winner_argmax pollSysC1 "s" 7
    (startPoll (GamingSystem.init none) "s" "q" [yesOption] 30000 0).1
    (by decide) (by decide)

theorem getD_mem_of_lt {α : Type} (l : List α) (i : Nat) (d : α) (h : i < l.length) :
    l.getD i d ∈ l := by
  rw [List.getD_eq_getElem?_getD, List.getElem?_eq_getElem h]
  exact List.getElem_mem h

/-- One chat event offered to a running lucky wheel. -/
structure LWEvent where
  username : String
  message : String
  userProfile : Option UserProfile
  time : Nat

/-- Feed a sequence of chat events to `addLuckyWheelEntry` for one session. -/
def runLuckyWheel (sys : GamingSystem) (sid : String) (events : List LWEvent) : GamingSystem :=
  events.foldl
    (fun s e => (addLuckyWheelEntry s sid e.username e.message e.userProfile e.time).2) sys

theorem addLuckyWheelEntry_step (sys : GamingSystem) (sid u m : String)
    (p : Option UserProfile) (now : Nat) (g : LuckyWheelGame)
    (hg : mapGet sys.activeGames sid = some (Game.lucky g)) :
    ∃ g', mapGet (addLuckyWheelEntry sys sid u m p now).2.activeGames sid
        = some (Game.lucky g') ∧
      ((g.entries.map (fun e => e.username)).Nodup →
        (g'.entries.map (fun e => e.username)).Nodup) ∧
      g'.winner = g.winner := by
  simp only [addLuckyWheelEntry, hg]
  by_cases hst : g.status ≠ "collecting"
  · simp only [if_pos hst]
    exact ⟨g, hg, fun h => h, rfl⟩
  · simp only [if_neg hst]
    by_cases hm : wordBoundaryTest (if g.keyword = "" then "GAME" else g.keyword).toUpper
        m.toUpper = true
    · simp only [hm, if_true]
      cases hf : g.entries.find? (fun e => e.username == u) with
      | some e0 =>
        simp only [hf]
        exact ⟨g, hg, fun h => h, rfl⟩
      | none =>
        simp only [hf]
        refine ⟨_, mapGet_mapSet_self _ _ _, ?_, rfl⟩
        intro hnd
        rw [List.map_append]
        rw [List.nodup_append]
        refine ⟨hnd, List.nodup_singleton _, ?_⟩
        intro a ha hb
        simp only [List.map_cons, List.map_nil, List.mem_singleton] at hb
        subst hb
        rcases List.mem_map.mp ha with ⟨e1, he1, hu1⟩
        have := List.find?_eq_none.mp hf e1 he1
        simp only [beq_iff_eq] at this
        exact this hu1
    · simp only [hm, if_false]
      exact ⟨g, hg, fun h => h, rfl⟩

theorem runLuckyWheel_inv (events : List LWEvent) (sys : GamingSystem) (sid : String)
    (g : LuckyWheelGame) (hg : mapGet sys.activeGames sid = some (Game.lucky g))
    (hnd : (g.entries.map (fun e => e.username)).Nodup) (hw : g.winner = none) :
    ∃ g', mapGet (runLuckyWheel sys sid events).activeGames sid = some (Game.lucky g') ∧
      (g'.entries.map (fun e => e.username)).Nodup ∧ g'.winner = none := by
  induction events generalizing sys g with
  | nil => exact ⟨g, hg, hnd, hw⟩
  | cons e es ih =>
    obtain ⟨g1, hg1, hnd1, hw1⟩ :=
      addLuckyWheelEntry_step sys sid e.username e.message e.userProfile e.time g hg
    exact ih _ g1 hg1 (hnd1 hnd) (hw1.trans hw)

theorem endLuckyWheel_final (sys : GamingSystem) (sid : String) (rand now : Nat)
    (g : LuckyWheelGame) (hg : mapGet sys.activeGames sid = some (Game.lucky g))
    (hnd : (g.entries.map (fun e => e.username)).Nodup) (hw : g.winner = none) :
    ∃ g', mapGet (endLuckyWheel sys sid rand now).2.activeGames sid = some (Game.lucky g') ∧
      (g'.entries.map (fun e => e.username)).Nodup ∧
      (∀ w, g'.winner = some w → w ∈ g'.entries) := by
  simp only [endLuckyWheel, hg]
  by_cases hcache : g.status = "ended" ∨ g.winner ≠ none
  · simp only [if_pos hcache]
    refine ⟨g, hg, hnd, ?_⟩
    intro w hww
    rw [hw] at hww
    exact absurd hww (by simp)
  · simp only [if_neg hcache]
    cases hent : g.entries with
    | nil =>
      simp only [hent]
      refine ⟨_, mapGet_mapSet_self _ _ _, ?_, ?_⟩
      · simp [hent]
      · intro w hww
        rw [hw] at hww
        exact absurd hww (by simp)
    | cons e es =>
      simp only [hent]
      refine ⟨_, mapGet_mapSet_self _ _ _, ?_, ?_⟩
      · simp only []
        rw [hent] at hnd
        exact hnd
      · intro w hww
        simp only [Option.some.injEq] at hww
        subst hww
        exact getD_mem_of_lt _ _ _ (Nat.mod_lt _ (Nat.succ_pos _))

/-- **C5.** For every lucky wheel run — any sequence of chat events ingested
after `startLuckyWheel`, followed by `endLuckyWheel` — the stored game's
entries never contain two records with the same `username`, and the winner,
if present, is an element of the entries list. Moreover the first matching
message wins: once a participant has an entry, any later `addLuckyWheelEntry`
call by the same participant is rejected and changes nothing. -/
theorem C5_luckywheel_entries_unique :
    (∀ (settings : Option Settings) (sid : String) (dur : Option Nat) (now0 : Nat)
        (events : List LWEvent) (rand now2 : Nat),
      ∃ g, mapGet (endLuckyWheel
              (runLuckyWheel (startLuckyWheel (GamingSystem.init settings) sid dur now0).2
                sid events) sid rand now2).2.activeGames sid = some (Game.lucky g) ∧
        (g.entries.map (fun e => e.username)).Nodup ∧
        (∀ w, g.winner = some w → w ∈ g.entries)) ∧
    (∀ sys sid u m p now g, mapGet sys.activeGames sid = some (Game.lucky g) →
        u ∈ g.entries.map (fun e => e.username) →
        addLuckyWheelEntry sys sid u m p now = (false, sys)) := by
  constructor
  · intro settings sid dur now0 events rand now2
    have hg0 : mapGet (startLuckyWheel (GamingSystem.init settings) sid dur now0).2.activeGames
        sid = some (Game.lucky (startLuckyWheel (GamingSystem.init settings) sid dur now0).1) :=
      mapGet_mapSet_self _ _ _
    obtain ⟨g1, hg1, hnd1, hw1⟩ :=
      runLuckyWheel_inv events _ sid _ hg0 (by simp [startLuckyWheel]) (by simp [startLuckyWheel])
    exact endLuckyWheel_final _ sid rand now2 g1 hg1 hnd1 hw1
  · intro sys sid u m p now g hg hu
    simp only [addLuckyWheelEntry, hg]
    by_cases hst : g.status ≠ "collecting"
    · simp only [if_pos hst]
    · simp only [if_neg hst]
      by_cases hm : wordBoundaryTest (if g.keyword = "" then "GAME" else g.keyword).toUpper
          m.toUpper = true
      · simp only [hm, if_true]
        rcases List.mem_map.mp hu with ⟨e1, he1, hu1⟩
        cases hf : g.entries.find? (fun e => e.username == u) with
        | some e0 => simp only [hf]
        | none =>
          have := List.find?_eq_none.mp hf e1 he1
          simp only [beq_iff_eq] at this
          exact absurd hu1 this
      · simp [hm]

/-- Witness for C5: the spec's concrete scenario — alice enters with
`"i play GAME now"`, her second message is ignored, and ending with alice as
the only entrant keeps the invariants. -/
theorem C5_witness :
    (∃ g, mapGet (endLuckyWheel
            (runLuckyWheel (startLuckyWheel (GamingSystem.init none) "s" none 0).2 "s"
              [⟨"alice", "i play GAME now", none, 1⟩, ⟨"alice", "GAME GAME", none, 2⟩])
            "s" 0 10000).2.activeGames "s" = some (Game.lucky g) ∧
      (g.entries.map (fun e => e.username)).Nodup ∧
      (∀ w, g.winner = some w → w ∈ g.entries)) ∧
    addLuckyWheelEntry luckySysC1 "s" "alice" "GAME" none 5 = (false, luckySysC1) := by
  constructor
  · exact C5_luckywheel_entries_unique.1 none "s" none 0
      [⟨"alice", "i play GAME now", none, 1⟩, ⟨"alice", "GAME GAME", none, 2⟩] 0 10000
  · exact C5_luckywheel_entries_unique.2 luckySysC1 "s" "alice" "GAME" none 5 luckyGameC1
      (by decide) (by decide)

/-- **C6.** One accepted race comment: the commenting participant's position
never decreases (a new runner starts at 0), all positions stay within
`[0, 100]`, other participants' records are untouched, and the moment the
updated position reaches 100 (`min` caps it there, so "100 or more" is
exactly 100) the race is ended on the spot — status `ended` and that
participant stored as winner — without waiting for the deadline. `moveD` is
the source's `Math.random() * 5 + 3` draw, so `3 ≤ moveD < 8`. -/
theorem C6_race_step (sys : GamingSystem) (sid u m : String) (moveD spd : ℚ) (male : Bool)
    (now : Nat) (g : RaceGame)
    (hg : mapGet sys.activeGames sid = some (Game.race g))
    (hst : g.status = "active") (hw : g.winner = none)
    (hpos : ∀ k p, mapGet g.participants k = some p → 0 ≤ p.position ∧ p.position ≤ 100)
    (hd3 : 3 ≤ moveD) (hd8 : moveD < 8) :
    (addRaceParticipant sys sid u m moveD spd male now).1 = true ∧
    (∃ g' p', mapGet (addRaceParticipant sys sid u m moveD spd male now).2.activeGames sid
          = some (Game.race g') ∧
      mapGet g'.participants u = some p' ∧
      (match mapGet g.participants u with
        | some p0 => p0.position
        | none => 0) ≤ p'.position ∧
      (∀ k q, mapGet g'.participants k = some q → 0 ≤ q.position ∧ q.position ≤ 100) ∧
      (∀ k, k ≠ u → mapGet g'.participants k = mapGet g.participants k) ∧
      (100 ≤ p'.position → g'.status = "ended" ∧ g'.winner = some p')) := by
  have h0d : (0 : ℚ) ≤ moveD := le_trans (by norm_num) hd3
  have hnst : ¬(g.status ≠ "active") := by simp [hst]
  simp only [addRaceParticipant, hg, if_neg hnst]
  cases hp : mapGet g.participants u with
  | none =>
    have hnowin : ¬((100 : ℚ) ≤ min 100 (0 + moveD) ∧ g.winner = none) := by
      rintro ⟨habs, -⟩
      have hmr : min (100 : ℚ) (0 + moveD) ≤ 0 + moveD := min_le_right _ _
      linarith
    simp only [hp, if_neg hnowin]
    refine ⟨trivial, _, _, mapGet_mapSet_self _ _ _, mapGet_mapSet_self _ _ _, ?_, ?_, ?_, ?_⟩
    · exact le_min (by norm_num) (by simpa using h0d)
    · intro k q hq
      by_cases hk : k = u
      · subst hk
        rw [mapGet_mapSet_self] at hq
        cases hq
        exact ⟨le_min (by norm_num) (by linarith), min_le_left _ _⟩
      · rw [mapGet_mapSet_ne _ _ _ _ hk] at hq
        exact hpos k q hq
    · intro k hk
      exact mapGet_mapSet_ne _ _ _ _ hk
    · intro habs
      have hmr : min (100 : ℚ) (0 + moveD) ≤ 0 + moveD := min_le_right _ _
      exfalso
      have h100 : (100 : ℚ) ≤ 0 + moveD := le_trans habs hmr
      linarith
  | some p0 =>
    obtain ⟨hp0l, hp0r⟩ := hpos u p0 hp
    by_cases hwin : (100 : ℚ) ≤ min 100 (p0.position + moveD)
    · have hcond : ((100 : ℚ) ≤ min 100 (p0.position + moveD) ∧ g.winner = none) :=
        ⟨hwin, hw⟩
      simp only [hp, if_pos hcond, endRace, mapGet_mapSet_self]
      refine ⟨trivial, _, _, rfl, mapGet_mapSet_self _ _ _, ?_, ?_, ?_, ?_⟩
      · exact le_min hp0r (by linarith)
      · intro k q hq
        by_cases hk : k = u
        · subst hk
          rw [mapGet_mapSet_self] at hq
          cases hq
          exact ⟨le_min (by norm_num) (by linarith), min_le_left _ _⟩
        · rw [mapGet_mapSet_ne _ _ _ _ hk] at hq
          exact hpos k q hq
      · intro k hk
        exact mapGet_mapSet_ne _ _ _ _ hk
      · intro _
        exact ⟨rfl, rfl⟩
    · have hcond : ¬((100 : ℚ) ≤ min 100 (p0.position + moveD) ∧ g.winner = none) := by
        rintro ⟨habs, -⟩
        exact hwin habs
      simp only [hp, if_neg hcond]
      refine ⟨trivial, _, _, mapGet_mapSet_self _ _ _, mapGet_mapSet_self _ _ _, ?_, ?_, ?_, ?_⟩
      · exact le_min hp0r (by linarith)
      · intro k q hq
        by_cases hk : k = u
        · subst hk
          rw [mapGet_mapSet_self] at hq
          cases hq
          exact ⟨le_min (by norm_num) (by linarith), min_le_left _ _⟩
        · rw [mapGet_mapSet_ne _ _ _ _ hk] at hq
          exact hpos k q hq
      · intro k hk
        exact mapGet_mapSet_ne _ _ _ _ hk
      · intro habs
        exact absurd habs hwin

/-- Witness for C6: dan's first comment on a fresh race is accepted, moves
him from 0 to 3, keeps every position in range, and does not end the race. -/
theorem C6_witness :
    (addRaceParticipant raceSysC1 "s" "dan" "go" 3 1 true 7).1 = true ∧
    (∃ g' p', mapGet (addRaceParticipant raceSysC1 "s" "dan" "go" 3 1 true 7).2.activeGames "s"
          = some (Game.race g') ∧
      mapGet g'.participants "dan" = some p' ∧
      (match mapGet (startRace (GamingSystem.init none) "s" 20000 0).1.participants "dan" with
        | some p0 => p0.position
        | none => 0) ≤ p'.position ∧
      (∀ k q, mapGet g'.participants k = some q → 0 ≤ q.position ∧ q.position ≤ 100) ∧
      (∀ k, k ≠ "dan" →
        mapGet g'.participants k
          = mapGet (startRace (GamingSystem.init none) "s" 20000 0).1.participants k) ∧
      (100 ≤ p'.position → g'.status = "ended" ∧ g'.winner = some p')) := by
  exact C6_race_step raceSysC1 "s" "dan" "go" 3 1 true 7
    (startRace (GamingSystem.init none) "s" 20000 0).1
    (by decide) (by decide) (by decide)
    (by intro k p h; simp [startRace, GamingSystem.init, mapGet] at h)
    (by norm_num) (by norm_num)

theorem length_labelTopSongs (i : Nat) (l : List (String × SongData)) :
    (labelTopSongs i l).length = l.length := by
  induction l generalizing i with
  | nil => rfl
  | cons s rest ih => simp [labelTopSongs, ih]

theorem get_labelTopSongs_letter (l : List (String × SongData)) (i j : Nat)
    (hj : j < (labelTopSongs i l).length) :
    ((labelTopSongs i l).get ⟨j, hj⟩).letter = String.singleton (Char.ofNat (65 + i + j)) := by
  induction l generalizing i j with
  | nil => simp [labelTopSongs] at hj
  | cons s rest ih =>
    cases j with
    | zero => simp [labelTopSongs]
    | succ j' =>
      have hj' : j' < (labelTopSongs (i + 1) rest).length := by
        simp only [labelTopSongs, List.length_cons] at hj
        omega
      have := ih (i + 1) j' hj'
      simp only [labelTopSongs, List.get_cons_succ, this]
      congr 2
      omega

theorem mem_labelTopSongs (i : Nat) (l : List (String × SongData)) (t : TopSong)
    (ht : t ∈ labelTopSongs i l) : ∃ e ∈ l, t.requestCount = e.2.count := by
  induction l generalizing i with
  | nil => simp [labelTopSongs] at ht
  | cons s rest ih =>
    simp only [labelTopSongs] at ht
    rcases List.mem_cons.mp ht with h | h
    · exact ⟨s, List.mem_cons_self _ _, by rw [h]⟩
    · obtain ⟨e, he, hc⟩ := ih (i + 1) h
      exact ⟨e, List.mem_cons_of_mem _ he, hc⟩

theorem pairwise_labelTopSongs (i : Nat) (l : List (String × SongData))
    (h : l.Pairwise (fun a b => b.2.count ≤ a.2.count)) :
    (labelTopSongs i l).Pairwise (fun a b => b.requestCount ≤ a.requestCount) := by
  induction l generalizing i with
  | nil => simp [labelTopSongs]
  | cons s rest ih =>
    rcases List.pairwise_cons.mp h with ⟨hs, hrest⟩
    simp only [labelTopSongs]
    refine List.pairwise_cons.mpr ⟨?_, ih (i + 1) hrest⟩
    intro b hb
    obtain ⟨e, he, hc⟩ := mem_labelTopSongs (i + 1) rest b hb
    rw [hc]
    exact hs e he

theorem filter_map_labelTopSongs (i : Nat) (l : List (String × SongData)) (c : Nat) :
    ((labelTopSongs i l).filter (fun t => decide (t.requestCount = c))).map (fun t => t.name)
      = (l.filter (fun e => decide (e.2.count = c))).map (fun e => e.1) := by
  induction l generalizing i with
  | nil => rfl
  | cons s rest ih =>
    by_cases hc : s.2.count = c
    · simp [labelTopSongs, List.filter_cons, hc, ih]
    · simp [labelTopSongs, List.filter_cons, hc, ih]

/-- **C7.** At the Requesting→Voting transition (some requests present), the
stored game's `topSongs` has at most 4 entries, is ordered by non-increasing
request count, carries the labels `A`, `B`, `C`, `D` in positional order
(`String.fromCharCode(65 + index)`), and — the stable-sort tie-break — for
every count value `c`, the names of the top songs with count `c` form a
subsequence of the names with count `c` in `songRequests` insertion order
(first-seen order). -/
theorem C7_topSongs_order (d : DJGameSystem) (sid : String) (now : Nat) (g : DJGame)
    (hg : mapGet d.activeGames sid = some g) (hne : g.songRequests ≠ []) :
    (advanceToVotingPhase d sid now).1 = true ∧
    ∃ g', mapGet (advanceToVotingPhase d sid now).2.activeGames sid = some g' ∧
      g'.phase = "voting" ∧ g'.status = "voting" ∧
      g'.topSongs.length ≤ 4 ∧
      g'.topSongs.Pairwise (fun a b => b.requestCount ≤ a.requestCount) ∧
      (∀ j (hj : j < g'.topSongs.length),
        (g'.topSongs.get ⟨j, hj⟩).letter = String.singleton (Char.ofNat (65 + j))) ∧
      (∀ c, ((g'.topSongs.filter (fun t => decide (t.requestCount = c))).map
            (fun t => t.name)).Sublist
          ((g.songRequests.filter (fun e => decide (e.2.count = c))).map (fun e => e.1))) := by
  have hlen : (sortByKeyDesc (fun e => e.2.count) g.songRequests).length
      = g.songRequests.length := length_sortByKeyDesc _ _
  have hne' : ¬(((sortByKeyDesc (fun e => e.2.count) g.songRequests).take 4).isEmpty = true) := by
    intro habs
    rw [List.isEmpty_iff] at habs
    have hlt := congrArg List.length habs
    rw [List.length_take, hlen] at hlt
    rcases Nat.min_eq_zero_iff.mp hlt with h4 | h0
    · exact absurd h4 (by norm_num)
    · exact hne (List.length_eq_zero.mp h0)
  simp only [advanceToVotingPhase, hg, hne', if_false]
  refine ⟨rfl, _, mapGet_mapSet_self _ _ _, rfl, rfl, ?_, ?_, ?_, ?_⟩
  · rw [length_labelTopSongs]
    exact List.length_take_le 4 _
  · exact pairwise_labelTopSongs 0 _
      (List.Pairwise.sublist (List.take_sublist 4 _) (pairwise_sortByKeyDesc _ _))
  · intro j hj
    have := get_labelTopSongs_letter _ 0 j hj
    simpa using this
  · intro c
    rw [filter_map_labelTopSongs]
    have h1 : (((sortByKeyDesc (fun e => e.2.count) g.songRequests).take 4).filter
          (fun e => decide (e.2.count = c))).Sublist
        ((sortByKeyDesc (fun e => e.2.count) g.songRequests).filter
          (fun e => decide (e.2.count = c))) :=
      List.Sublist.filter _ (List.take_sublist 4 _)
    rw [filter_sortByKeyDesc] at h1
    exact List.Sublist.map _ h1

/-- The DJ system of `djVotingSysC2` just before the phase transition. -/
def djRequestedSysC7 : DJGameSystem :=
  (addSongRequest (addSongRequest djSysC1 "s" "u1" "Song Alpha" 1).2 "s" "u2" "Song Beta" 2).2

/-- Witness for C7: the two-song request round transitions to voting with
correctly labelled, ordered top songs. -/
theorem C7_witness :
    (advanceToVotingPhase djRequestedSysC7 "s" 3).1 = true ∧
    ∃ g', mapGet (advanceToVotingPhase djRequestedSysC7 "s" 3).2.activeGames "s" = some g' ∧
      g'.phase = "voting" ∧ g'.status = "voting" ∧
      g'.topSongs.length ≤ 4 ∧
      g'.topSongs.Pairwise (fun a b => b.requestCount ≤ a.requestCount) ∧
      (∀ j (hj : j < g'.topSongs.length),
        (g'.topSongs.get ⟨j, hj⟩).letter = String.singleton (Char.ofNat (65 + j))) ∧
      (∀ c, ((g'.topSongs.filter (fun t => decide (t.requestCount = c))).map
            (fun t => t.name)).Sublist
          ((((mapGet djRequestedSysC7.activeGames "s").getD djGameZero).songRequests.filter
              (fun e => decide (e.2.count = c))).map (fun e => e.1))) := by
  exact C7_topSongs_order djRequestedSysC7 "s" 3
    ((mapGet djRequestedSysC7.activeGames "s").getD djGameZero) (by rfl) (by decide)

theorem mapGet_filter_none {α : Type} (m : List (String × α)) (k : String)
    (p : String × α → Bool) (h : mapGet m k = none) :
    mapGet (m.filter p) k = none := by
  induction m with
  | nil => simp [mapGet]
  | cons hd tl ih =>
    obtain ⟨k₀, v₀⟩ := hd
    by_cases hkk : k₀ = k
    · simp [mapGet, hkk] at h
    · simp only [mapGet, if_neg hkk] at h
      by_cases hp : p (k₀, v₀) <;> simp [List.filter_cons, hp, mapGet, hkk, ih h]

theorem mapGet_eq_none_of_not_mem {α : Type} (m : List (String × α)) (k : String)
    (h : k ∉ m.map Prod.fst) : mapGet m k = none := by
  induction m with
  | nil => rfl
  | cons hd tl ih =>
    obtain ⟨k₀, v₀⟩ := hd
    simp only [List.map_cons, List.mem_cons] at h
    push_neg at h
    have hne' : ¬(k₀ = k) := fun hh => h.1 hh.symm
    simp [mapGet, hne', ih h.2]

theorem mapGet_filter {α : Type} (m : List (String × α)) (k : String) (v : α)
    (p : String × α → Bool) (hnd : (m.map Prod.fst).Nodup) (h : mapGet m k = some v) :
    mapGet (m.filter p) k = if p (k, v) then some v else none := by
  induction m with
  | nil => simp [mapGet] at h
  | cons hd tl ih =>
    obtain ⟨k₀, v₀⟩ := hd
    simp only [List.map_cons, List.nodup_cons] at hnd
    obtain ⟨hk0, hnd'⟩ := hnd
    by_cases hkk : k₀ = k
    · subst hkk
      simp [mapGet] at h
      subst h
      by_cases hp : p (k₀, v₀)
      · simp [List.filter_cons, hp, mapGet]
      · simp only [List.filter_cons, hp, Bool.false_eq_true, if_false]
        exact mapGet_filter_none _ _ _ (mapGet_eq_none_of_not_mem tl k₀ hk0)
    · simp only [mapGet, if_neg hkk] at h
      by_cases hp : p (k₀, v₀) <;>
        simp [List.filter_cons, hp, mapGet, hkk, ih hnd' h]

/-- **C8 counterexample.** A game that just ended is *not* retained: the
lucky wheel in `luckySysC1` has status `ended` and scheduled end time 10000;
running `cleanup` at that very instant (well inside the 60 s window) removes
it, while the claim requires terminal status *and* age beyond the retention
window. -/
theorem C8_counterexample :
    (mapGet luckySysC1.activeGames "s").map Game.status = some "ended" ∧
    (10000 : Nat) ≤ 10000 + 60000 ∧
    mapGet (cleanup luckySysC1 10000).activeGames "s" = none := by
  decide

/-- **C8 (amended).** Both cleanups remove a stored game iff its status is
`ended` *or* the current time is past its scheduled end time plus the 60 s
window (`status === 'ended' || now > endTime + 60000`) — a disjunction, not
the claimed conjunction, so a just-ended game is removed by the next cleanup
run rather than being retained. -/
theorem C8_cleanup_policy (sys : GamingSystem) (d : DJGameSystem) (now : Nat) (sid : String)
    (g : Game) (dg : DJGame)
    (hnd : (sys.activeGames.map Prod.fst).Nodup)
    (hdnd : (d.activeGames.map Prod.fst).Nodup)
    (hg : mapGet sys.activeGames sid = some g)
    (hdg : mapGet d.activeGames sid = some dg) :
    (mapGet (cleanup sys now).activeGames sid
      = if g.status = "ended" ∨ g.endTime + 60000 < now then none else some g) ∧
    (mapGet (DJGameSystem.cleanup d now).activeGames sid
      = if dg.status = "ended" ∨ dg.endTime + 60000 < now then none else some dg) := by
  constructor
  · simp only [cleanup]
    rw [mapGet_filter _ _ _ _ hnd hg]
    by_cases hc : g.status = "ended" ∨ g.endTime + 60000 < now
    · rw [if_pos hc]
      rcases hc with hc | hc <;> simp [hc]
    · rw [if_neg hc]
      push_neg at hc
      simp [hc.1, hc.2]
  · simp only [DJGameSystem.cleanup]
    rw [mapGet_filter _ _ _ _ hdnd hdg]
    by_cases hc : dg.status = "ended" ∨ dg.endTime + 60000 < now
    · rw [if_pos hc]
      rcases hc with hc | hc <;> simp [hc]
    · rw [if_neg hc]
      push_neg at hc
      simp [hc.1, hc.2]

/-- Witness for C8: the ended wheel is removed at once; the still-running DJ
game survives the same cleanup instant. -/
theorem C8_witness :
    mapGet (cleanup luckySysC1 10000).activeGames "s" = none ∧
    mapGet (DJGameSystem.cleanup djSysC1 10000).activeGames "s" = some djGameZero := by
  obtain ⟨h1, h2⟩ := C8_cleanup_policy luckySysC1 djSysC1 10000 "s"
    (Game.lucky luckyGameC1) djGameZero (by decide) (by decide) (by decide) (by decide)
  constructor
  · rw [h1]
    decide
  · rw [h2]
    decide

/-- Settings document A: DJ voting phase 10 s. -/
def djSettingsA : Settings :=
  { luckyWheel := none,
    djGame := some { requestDuration := some 5, votingDuration := some 10 } }

/-- Settings document B: DJ voting phase 20 s. -/
def djSettingsB : Settings :=
  { luckyWheel := none,
    djGame := some { requestDuration := some 5, votingDuration := some 20 } }

/-- A DJ game started under settings A, with one request pending. -/
def djSysC9 : DJGameSystem :=
  (addSongRequest
    (startDJGame { activeGames := [], gameHistory := [], settings := some djSettingsA } "s" 0).2
    "s" "u1" "Great Tune" 1).2

/-- Lucky wheel settings with a custom keyword, for the C9 witness. -/
def lwSettingsK : Settings :=
  { luckyWheel := some { duration := some 7, keyword := some "WHEEL" }, djGame := none }

/-- **C9 counterexample.** A DJ game started while `votingDuration` was 10 s
(so the value captured at its own Start is 10000 ms) transitions to voting
*after* a settings refresh to 20 s — and the in-flight game's voting phase
gets duration 20000 ms, the refresh-time value, not the start-time one. -/
theorem C9_counterexample :
    getSettingDJVoting (some djSettingsA) * 1000 = 10000 ∧
    ((mapGet (advanceToVotingPhase (DJGameSystem.refreshSettings djSysC9 (some djSettingsB))
        "s" 5000).2.activeGames "s").map (fun g => g.duration)) = some 20000 := by
  decide

/-- **C9 (amended).** LuckyWheel really does capture its configuration at
Start: `startLuckyWheel` bakes the *current* settings' keyword and duration
into the game record (so a Refresh affects only wheels started after it), and
`addLuckyWheelEntry`'s accept decision and game updates are independent of
the system's current settings. DJGame, however, re-reads the current settings
at each phase transition: `advanceToVotingPhase` stores
`getSetting('votingDuration')·1000` and `startNextRound`
`getSetting('requestDuration')·1000` as of transition time, so a Refresh does
reach later phases of in-flight DJ games. -/
theorem C9_settings_capture :
    (∀ (sys : GamingSystem) (s' : Option Settings) (sid : String) (now : Nat),
        ((startLuckyWheel (GamingSystem.refreshSettings sys s') sid none now).1).keyword
          = getSettingLWKeyword s' ∧
        ((startLuckyWheel (GamingSystem.refreshSettings sys s') sid none now).1).duration
          = getSettingLWDuration s' * 1000) ∧
    (∀ (sys : GamingSystem) (s' : Option Settings) (sid u msg : String)
        (p : Option UserProfile) (now : Nat),
        (addLuckyWheelEntry (GamingSystem.refreshSettings sys s') sid u msg p now).1
          = (addLuckyWheelEntry sys sid u msg p now).1 ∧
        (addLuckyWheelEntry (GamingSystem.refreshSettings sys s') sid u msg p now).2.activeGames
          = (addLuckyWheelEntry sys sid u msg p now).2.activeGames) ∧
    (∀ (d : DJGameSystem) (sid : String) (now : Nat) (g : DJGame),
        mapGet d.activeGames sid = some g → g.songRequests ≠ [] →
        ∃ g', mapGet (advanceToVotingPhase d sid now).2.activeGames sid = some g' ∧
          g'.duration = getSettingDJVoting d.settings * 1000) ∧
    (∀ (d : DJGameSystem) (sid : String) (now : Nat) (g : DJGame),
        mapGet d.activeGames sid = some g →
        ∃ g', mapGet (startNextRound d sid now).2.activeGames sid = some g' ∧
          g'.duration = getSettingDJRequest d.settings * 1000) := by
  refine ⟨?_, ?_, ?_, ?_⟩
  · intro sys s' sid now
    exact ⟨rfl, rfl⟩
  · intro sys s' sid u msg p now
    constructor <;>
    · simp only [addLuckyWheelEntry, GamingSystem.refreshSettings]
      cases mapGet sys.activeGames sid with
      | none => rfl
      | some g =>
        cases g with
        | lucky lw =>
          by_cases h1 : lw.status ≠ "collecting"
          · simp [h1]
          · simp only [if_neg h1]
            by_cases h2 : wordBoundaryTest
                (if lw.keyword = "" then "GAME" else lw.keyword).toUpper msg.toUpper = true
            · simp only [h2, if_true]
              cases lw.entries.find? (fun e => e.username == u) <;> rfl
            · simp [h2]
        | poll pp => rfl
        | race rr => rfl
  · intro d sid now g hg hne
    have hne' : ¬(((sortByKeyDesc (fun e => e.2.count) g.songRequests).take 4).isEmpty
        = true) := by
      intro habs
      rw [List.isEmpty_iff] at habs
      have hlt := congrArg List.length habs
      rw [List.length_take, length_sortByKeyDesc] at hlt
      rcases Nat.min_eq_zero_iff.mp hlt with h4 | h0
      · exact absurd h4 (by norm_num)
      · exact hne (List.length_eq_zero.mp h0)
    simp only [advanceToVotingPhase, hg, hne', if_false]
    exact ⟨_, mapGet_mapSet_self _ _ _, rfl⟩
  · intro d sid now g hg
    simp only [startNextRound, hg]
    exact ⟨_, mapGet_mapSet_self _ _ _, rfl⟩

/-- Witness for C9: concrete start-time capture for the wheel, settings
independence of ingestion, and transition-time reads for the DJ game. -/
theorem C9_witness :
    ((startLuckyWheel (GamingSystem.refreshSettings (GamingSystem.init none)
        (some lwSettingsK)) "s" none 0).1).keyword = getSettingLWKeyword (some lwSettingsK) ∧
    (addLuckyWheelEntry (GamingSystem.refreshSettings luckySysC1 (some lwSettingsK))
        "s" "bob" "GAME" none 9).1 = (addLuckyWheelEntry luckySysC1 "s" "bob" "GAME" none 9).1 ∧
    (∃ g', mapGet (advanceToVotingPhase djSysC9 "s" 5000).2.activeGames "s" = some g' ∧
      g'.duration = getSettingDJVoting djSysC9.settings * 1000) ∧
    (∃ g', mapGet (startNextRound djSysC9 "s" 6000).2.activeGames "s" = some g' ∧
      g'.duration = getSettingDJRequest djSysC9.settings * 1000) := by
  refine ⟨?_, ?_, ?_, ?_⟩
  · exact (C9_settings_capture.1 (GamingSystem.init none) (some lwSettingsK) "s" 0).1
  · exact (C9_settings_capture.2.1 luckySysC1 (some lwSettingsK) "s" "bob" "GAME" none 9).1
  · exact C9_settings_capture.2.2.1 djSysC9 "s" 5000
      ((mapGet djSysC9.activeGames "s").getD djGameZero) (by rfl) (by decide)
  · exact C9_settings_capture.2.2.2 djSysC9 "s" 6000
      ((mapGet djSysC9.activeGames "s").getD djGameZero) (by rfl)

/-- **C10.** During the Requesting phase, `addSongRequest` returns `true` for
every message whose trimmed, prefix-stripped text has length ≥ 2 — including
when the same participant has already contributed to that (normalized) song,
in which case the call records nothing and the entire DJ system state is
unchanged. The returned flag therefore signals only "well-formed request in
the right phase", not that any count or participant set changed. -/
theorem C10_addSongRequest_accept (d : DJGameSystem) (sid u msg : String) (now : Nat)
    (g : DJGame) (hg : mapGet d.activeGames sid = some g)
    (hph : g.phase = "song-request")
    (hlen : 2 ≤ (strippedSongName msg).length) :
    (addSongRequest d sid u msg now).1 = true ∧
    (∀ sd, mapGet g.songRequests (String.mk (titleCase (strippedSongName msg))) = some sd →
      u ∈ sd.users → addSongRequest d sid u msg now = (true, d)) := by
  have hnph : ¬(g.phase ≠ "song-request") := by simp [hph]
  have hnlen : ¬((strippedSongName msg).length < 2) := not_lt.mpr hlen
  constructor
  · simp only [addSongRequest, hg, if_neg hnph, if_neg hnlen]
    split <;> split <;> rfl
  · intro sd hsd hu
    simp only [addSongRequest, hg, if_neg hnph, if_neg hnlen, hsd, Option.isNone_some,
      Bool.false_eq_true, if_false, Option.getD_some, if_pos hu]
    have hetag : ({ g with songRequests := g.songRequests } : DJGame) = g := rfl
    rw [hetag, mapSet_self d.activeGames sid g hg]

/-- Witness for C10: u1 re-requesting the song they already contributed to
gets `true` back while the system state is bit-for-bit unchanged. -/
theorem C10_witness :
    (addSongRequest djRequestedSysC7 "s" "u1" "Song Alpha" 9).1 = true ∧
    addSongRequest djRequestedSysC7 "s" "u1" "Song Alpha" 9 = (true, djRequestedSysC7) := by
  have h := C10_addSongRequest_accept djRequestedSysC7 "s" "u1" "Song Alpha" 9
    ((mapGet djRequestedSysC7.activeGames "s").getD djGameZero) (by rfl) (by decide) (by decide)
  exact ⟨h.1, h.2 ⟨1, ["u1"]⟩ (by decide) (by decide)⟩
